import Mathlib

/-!
# Verification of the account-reconciliation and access-model core

Shallow embedding of the authentication / account-linking decision procedure
(`lib/auth.ts` `signIn` callback, `events.signIn`, `normalizePhone`,
`mapAddress`) and of the admin route handlers
(`app/api/users/route.ts`, `app/api/users/[userId]/route.ts`,
`app/api/customers/[customerId]/accesses/route.ts`,
`app/api/login-events/route.ts`, `app/api/companies/route.ts`).

Modelling conventions:
* JS strings that are trimmed/inspected character-wise (phone numbers) are
  `List Char`; other strings are Lean `String`.
* `undefined` / `null` become `Option`; JS truthiness of a string is
  "`some` of a non-empty string".
* The relational store is a record of lists; `findUnique` is `List.find?`,
  `update where <unique col>` maps over the list updating matching rows.
* Each Prisma call inside the reconciler's `try` block can be made to throw
  via an explicit fault flag; the thrown state is the store at the point of
  the throw (reads and failed writes do not change it).
-/

namespace Bjugstad

/-! ## Phone normalization (`normalizePhone` in lib/auth.ts) -/

/-- JS `String.prototype.trim` on a character list: drop whitespace from both
ends. -/
def trimChars (l : List Char) : List Char :=
  ((l.dropWhile Char.isWhitespace).reverse.dropWhile Char.isWhitespace).reverse

/-- `s.startsWith("+")` on a character list. -/
def startsWithPlus : List Char → Bool
  | [] => false
  | c :: _ => c = '+'

/-- `normalizePhone` from lib/auth.ts:
`if (!input) return undefined; const s = input.trim();
 if (s.startsWith("+")) return s;
 if (/^\d+$/.test(s)) return "+" + s; return undefined;`.
The `!input` guard is JS truthiness, so the empty string is treated as
absent; the regex `/^\d+$/` is "non-empty and all digits". -/
def normalizePhone : Option (List Char) → Option (List Char)
  | none => none
  | some input =>
    if input = [] then none
    else
      let s := trimChars input
      if startsWithPlus s then some s
      else if s ≠ [] ∧ s.all Char.isDigit then some ('+' :: s) else none

/-! ### Lemmas about `trimChars` -/

theorem dropWhile_head_false {p : Char → Bool} {l : List Char} {a : Char}
    (h : (l.dropWhile p).head? = some a) : p a = false := by
  induction l with
  | nil => simp [List.dropWhile] at h
  | cons b t ih =>
    rw [List.dropWhile_cons] at h
    by_cases hb : p b
    · simp [hb] at h; exact ih h
    · simp [hb] at h
      simp [← h, Bool.not_eq_true] at hb ⊢
      exact hb

theorem dropWhile_eq_self_of_head {p : Char → Bool} {l : List Char}
    (h : ∀ a, l.head? = some a → p a = false) : l.dropWhile p = l := by
  cases l with
  | nil => rfl
  | cons a t =>
    rw [List.dropWhile_cons]
    simp [h a rfl]

theorem dropWhile_getLast?_eq {p : Char → Bool} {l : List Char}
    (h : l.dropWhile p ≠ []) : (l.dropWhile p).getLast? = l.getLast? := by
  induction l with
  | nil => simp [List.dropWhile] at h
  | cons a t ih =>
    rw [List.dropWhile_cons] at h ⊢
    by_cases ha : p a
    · rw [if_pos ha] at h ⊢
      rw [ih h]
      cases t with
      | nil => rw [List.dropWhile_nil] at h; exact absurd rfl h
      | cons b u => simp [List.getLast?_cons_cons]
    · rw [if_neg ha]

/-- The head of a trimmed list is not whitespace. -/
theorem trimChars_head_not_ws {l : List Char} {a : Char}
    (h : (trimChars l).head? = some a) : a.isWhitespace = false := by
  unfold trimChars at h
  set d1 := l.dropWhile Char.isWhitespace with hd1
  set d2 := d1.reverse.dropWhile Char.isWhitespace with hd2
  have hne : d2 ≠ [] := by
    intro hnil
    rw [hnil] at h
    simp at h
  rw [List.head?_reverse] at h
  rw [dropWhile_getLast?_eq (by rw [← hd2] at *; exact hne)] at h
  rw [List.getLast?_reverse] at h
  exact dropWhile_head_false h

/-- The last element of a trimmed list is not whitespace. -/
theorem trimChars_getLast_not_ws {l : List Char} {a : Char}
    (h : (trimChars l).getLast? = some a) : a.isWhitespace = false := by
  unfold trimChars at h
  rw [List.getLast?_reverse] at h
  exact dropWhile_head_false h

/-- Trimming a list whose both ends are free of whitespace is the identity. -/
theorem trimChars_eq_self {l : List Char}
    (h1 : ∀ a, l.head? = some a → a.isWhitespace = false)
    (h2 : ∀ a, l.getLast? = some a → a.isWhitespace = false) :
    trimChars l = l := by
  unfold trimChars
  rw [dropWhile_eq_self_of_head h1]
  rw [dropWhile_eq_self_of_head (by
    intro a ha
    rw [List.head?_reverse] at ha
    exact h2 a ha)]
  exact List.reverse_reverse l

/-- `trimChars` is idempotent. -/
theorem trimChars_idem (l : List Char) : trimChars (trimChars l) = trimChars l :=
  trimChars_eq_self (fun _ h => trimChars_head_not_ws h)
    (fun _ h => trimChars_getLast_not_ws h)

theorem digit_not_ws {c : Char} (h : c.isDigit = true) :
    c.isWhitespace = false := by
  by_contra hw
  rw [Bool.not_eq_false] at hw
  simp only [Char.isWhitespace, Bool.or_eq_true, decide_eq_true_eq] at hw
  rcases hw with ((h' | h') | h') | h' <;> subst h' <;> revert h <;> decide

/-! ### Characterization of `normalizePhone` -/

theorem startsWithPlus_cons (c : Char) (l : List Char) :
    startsWithPlus (c :: l) = decide (c = '+') := rfl

theorem normalizePhone_of_trim_plus {input : List Char}
    (hplus : startsWithPlus (trimChars input) = true)
    (hne : input ≠ []) :
    normalizePhone (some input) = some (trimChars input) := by
  simp only [normalizePhone, if_neg hne, hplus, if_true]

theorem normalizePhone_of_trim_digits {input : List Char}
    (hplus : startsWithPlus (trimChars input) = false)
    (hne : trimChars input ≠ [])
    (hdig : (trimChars input).all Char.isDigit = true) :
    normalizePhone (some input) = some ('+' :: trimChars input) := by
  have hie : input ≠ [] := by
    intro hnil; subst hnil; exact hne rfl
  simp only [normalizePhone, if_neg hie, hplus, Bool.false_eq_true, if_false,
    if_pos (And.intro hne hdig)]

theorem normalizePhone_of_trim_other {input : List Char}
    (hplus : startsWithPlus (trimChars input) = false)
    (hother : ¬(trimChars input ≠ [] ∧ (trimChars input).all Char.isDigit = true)) :
    normalizePhone (some input) = none := by
  by_cases hie : input = []
  · subst hie; rfl
  · simp only [normalizePhone, if_neg hie, hplus, Bool.false_eq_true, if_false,
      if_neg hother]

theorem getLast?_mem_of_ne {l : List Char} {a : Char}
    (h : l.getLast? = some a) : a ∈ l := by
  induction l with
  | nil => simp at h
  | cons b t ih =>
    cases t with
    | nil => simp at h; subst h; simp
    | cons c u =>
      rw [List.getLast?_cons_cons] at h
      exact List.mem_cons_of_mem b (ih h)

/-- A `'+'`-prefixed all-digit tail is already trimmed. -/
theorem trimChars_plus_digits {s : List Char} (hne : s ≠ [])
    (hdig : s.all Char.isDigit = true) :
    trimChars ('+' :: s) = '+' :: s := by
  apply trimChars_eq_self
  · intro a ha
    simp only [List.head?_cons, Option.some.injEq] at ha
    subst ha; decide
  · intro a ha
    rcases hs : s with _ | ⟨c, cs⟩
    · exact absurd hs hne
    · rw [hs, List.getLast?_cons_cons] at ha
      have hmem := getLast?_mem_of_ne ha
      have := List.all_eq_true.mp (hs ▸ hdig) a hmem
      exact digit_not_ws this

/-! ## Claim theorems about `normalizePhone` (C6, C9) -/

/-- C6 counterexample: the claim says the canonicalization "never returns a
value that contains non-digit characters after the leading '+'", but
`normalizePhone` returns any trimmed input that starts with `'+'` unchanged:
on `"+47 abc"` it returns `"+47 abc"`, whose tail is not all digits. -/
theorem C6_counterexample :
    normalizePhone (some ['+', '4', '7', ' ', 'a', 'b', 'c'])
      = some ['+', '4', '7', ' ', 'a', 'b', 'c'] ∧
    ['4', '7', ' ', 'a', 'b', 'c'].all Char.isDigit = false := by
  constructor
  · decide
  · decide

/-- C6 (amended): the canonicalization trims whitespace, returns the trimmed
value unchanged whenever it starts with `'+'` (even when non-digit characters
follow), prepends `'+'` when the trimmed value is non-empty and all digits,
and otherwise returns absent. -/
theorem C6_normalizePhone_characterization :
    normalizePhone none = none ∧
    (∀ l, l ≠ [] → startsWithPlus (trimChars l) = true →
      normalizePhone (some l) = some (trimChars l)) ∧
    (∀ l, startsWithPlus (trimChars l) = false → trimChars l ≠ [] →
      (trimChars l).all Char.isDigit = true →
      normalizePhone (some l) = some ('+' :: trimChars l)) ∧
    (∀ l, startsWithPlus (trimChars l) = false →
      ¬(trimChars l ≠ [] ∧ (trimChars l).all Char.isDigit = true) →
      normalizePhone (some l) = none) := by
  refine ⟨rfl, ?_, ?_, ?_⟩
  · intro l h1 h2
    exact normalizePhone_of_trim_plus h2 h1
  · intro l h1 h2 h3
    exact normalizePhone_of_trim_digits h1 h2 h3
  · intro l h1 h2
    exact normalizePhone_of_trim_other h1 h2

/-- C6 witness: the characterization applied to the concrete input `" +47"`. -/
theorem C6_witness :
    normalizePhone (some [' ', '+', '4', '7']) = some ['+', '4', '7'] := by
  have h := C6_normalizePhone_characterization.2.1 [' ', '+', '4', '7']
    (by decide) (by decide)
  rw [h]
  decide

/-- C9: phone canonicalization is idempotent:
`normalizePhone (normalizePhone p) = normalizePhone p` for every input,
including absent inputs, inputs with surrounding whitespace, leading `'+'`,
and non-digit characters. -/
theorem C9_normalizePhone_idempotent (p : Option (List Char)) :
    normalizePhone (normalizePhone p) = normalizePhone p := by
  cases p with
  | none => rfl
  | some input =>
    by_cases hie : input = []
    · subst hie; rfl
    · by_cases hplus : startsWithPlus (trimChars input) = true
      · rw [normalizePhone_of_trim_plus hplus hie]
        have htne : trimChars input ≠ [] := by
          intro h0; rw [h0] at hplus; simp [startsWithPlus] at hplus
        have h2 : startsWithPlus (trimChars (trimChars input)) = true := by
          rw [trimChars_idem]; exact hplus
        rw [normalizePhone_of_trim_plus h2 htne, trimChars_idem]
      · rw [Bool.not_eq_true] at hplus
        by_cases hd : trimChars input ≠ [] ∧ (trimChars input).all Char.isDigit = true
        · rw [normalizePhone_of_trim_digits hplus hd.1 hd.2]
          have htrim := trimChars_plus_digits hd.1 hd.2
          have hsp : startsWithPlus (trimChars ('+' :: trimChars input)) = true := by
            rw [htrim]; simp [startsWithPlus]
          rw [normalizePhone_of_trim_plus hsp (by simp), htrim]
        · rw [normalizePhone_of_trim_other hplus hd]
          rfl

/-! ## JS string truthiness helpers -/

/-- Truthiness of an optional JS string: present and non-empty. -/
def optStrTruthy : Option String → Bool
  | none => false
  | some s => s ≠ ""

/-- JS `!x` on an optional string: absent or empty. -/
def optStrFalsy (o : Option String) : Bool := !optStrTruthy o

/-- `(typeof a === "string" && a) || (typeof b === "string" && b) || undefined`:
first non-empty string, else absent. -/
def firstTruthy (a b : Option String) : Option String :=
  match a with
  | some s => if s = "" then (match b with
      | some t => if t = "" then none else some t
      | none => none) else some s
  | none => match b with
    | some t => if t = "" then none else some t
    | none => none

/-! ## Address mapping (`mapAddress` in lib/auth.ts) -/

/-- The raw `profile.address` object; each sub-field is `none` when absent or
not a string. `none` at the outer level is a missing / non-object address. -/
structure AddressInput where
  streetAddress : Option String
  postalCode : Option String
  region : Option String
deriving DecidableEq, Repr

/-- Output of `mapAddress`: the three column values it computed (each possibly
`undefined`, which Prisma ignores on update). -/
structure AddressData where
  address_street : Option String
  address_postal_code : Option String
  address_region : Option String
deriving DecidableEq, Repr

/-- `mapAddress` from lib/auth.ts: `{}` for a missing/non-object address,
otherwise a field-by-field copy of the string-typed sub-fields. -/
def mapAddress : Option AddressInput → AddressData
  | none => ⟨none, none, none⟩
  | some a => ⟨a.streetAddress, a.postalCode, a.region⟩

/-! ## Relational store (User, Account, UserCustomerAccess, UserLoginEvent,
Customer tables) -/

/-- A row of the `users` table (the columns the reconciler and the claims
touch; timestamps other than `lastLoginAt` and the terms fields are not
needed by any claim). -/
structure DBUser where
  id : String
  phone : List Char
  email : Option String
  addressStreet : Option String
  addressPostal : Option String
  addressRegion : Option String
  lastLoginAt : Option Nat
deriving DecidableEq, Repr

/-- A row of the `accounts` table (ProviderAccount). OAuth token material is
carried by the real row but plays no role in any claim, so it is omitted. -/
structure DBAccount where
  userId : String
  provider : String
  providerAccountId : String
deriving DecidableEq, Repr

/-- A row of `user_customer_accesses` (AccessGrant). -/
structure AccessGrant where
  userId : String
  customerId : Int
  role : String
deriving DecidableEq, Repr

/-- A row of `user_login_events`. -/
structure LoginEvent where
  userId : String
  provider : Option String
  loggedAt : Nat
deriving DecidableEq, Repr

/-- A row of the `customers` table (CustomerCompany). -/
structure Customer where
  customer_id : Int
  name : String
  organization_number : String
deriving DecidableEq, Repr

/-- The relational store. Lists model tables; `findUnique` is `List.find?`. -/
structure DB where
  users : List DBUser
  accounts : List DBAccount
  grants : List AccessGrant
  loginEvents : List LoginEvent
  customers : List Customer
deriving DecidableEq, Repr

def findUserByPhone (db : DB) (pn : List Char) : Option DBUser :=
  db.users.find? (fun u => decide (u.phone = pn))

def findUserByEmail (db : DB) (e : String) : Option DBUser :=
  db.users.find? (fun u => decide (u.email = some e))

def findAccount (db : DB) (prov paid : String) : Option DBAccount :=
  db.accounts.find? (fun a => decide (a.provider = prov ∧ a.providerAccountId = paid))

/-! ## The sign-in reconciler (`callbacks.signIn` in lib/auth.ts) -/

/-- Arguments of the `signIn` callback that the decision procedure reads:
`account.provider`, `account.providerAccountId`, the adapter-resolved
`user` object's `id` and `email`, and the raw Vipps `profile` claims. -/
structure SignInInput where
  provider : Option String
  providerAccountId : Option String
  userId : Option String
  userEmail : Option String
  profileEmail : Option String
  profilePhoneNumber : Option (List Char)
  profileAddress : Option AddressInput
deriving DecidableEq, Repr

/-- Fault injection: one flag per Prisma call site inside the reconciler's
`try` block. A set flag makes that call throw when (and only when) it is
reached. -/
structure SignInFaults where
  failFindUserByPhone : Bool
  failFindUserByEmail : Bool
  failUserUpdate : Bool
  failAccountFind : Bool
  failAccountCreate : Bool
deriving DecidableEq, Repr

def noFaults : SignInFaults := ⟨false, false, false, false, false⟩

/-- Error taxonomy values of the redirect results. `AccountNotLinked` models
the literal query value `error=OAuthAccountNotLinked`, `UserNotFound` the
literal `error=UserNotFound`. -/
inductive AuthError
  | AccountNotLinked
  | UserNotFound
deriving DecidableEq, Repr

/-- Result of the `signIn` callback: `true` (allow) or a redirect to `/login`
carrying an error code and, when present, the asserted email. -/
inductive Outcome
  | allow
  | redirect (err : AuthError) (email : Option String)
deriving DecidableEq, Repr

/-- The `updates` object built in CASE 1 of the callback (keys that were
assigned). -/
structure UserUpdates where
  email : Option String
  phone : Option (List Char)
  street : Option String
  postal : Option String
  region : Option String
deriving DecidableEq, Repr

/-- `Object.keys(updates).length > 0` is false. -/
def UserUpdates.isEmpty (u : UserUpdates) : Bool :=
  u.email.isNone && u.phone.isNone && u.street.isNone &&
    u.postal.isNone && u.region.isNone

/-- CASE 1 update computation:
`if (!userByPhone.email && emailAddr) updates.email = emailAddr;`
`if (phoneNumber && userByPhone.phone !== phoneNumber) updates.phone = ...;`
plus the three truthiness-guarded address assignments. -/
def mkCase1Updates (b : DBUser) (emailAddr : Option String) (pn : List Char)
    (ad : AddressData) : UserUpdates :=
  { email := if optStrFalsy b.email ∧ optStrTruthy emailAddr then emailAddr else none
    phone := if pn ≠ [] ∧ b.phone ≠ pn then some pn else none
    street := if optStrTruthy ad.address_street then ad.address_street else none
    postal := if optStrTruthy ad.address_postal_code then ad.address_postal_code else none
    region := if optStrTruthy ad.address_region then ad.address_region else none }

/-- Apply a CASE 1 `updates` object to a user row. -/
def applyUserUpdates (upd : UserUpdates) (u : DBUser) : DBUser :=
  { u with
    email := (match upd.email with | some e => some e | none => u.email)
    phone := (match upd.phone with | some p => p | none => u.phone)
    addressStreet := (match upd.street with | some s => some s | none => u.addressStreet)
    addressPostal := (match upd.postal with | some s => some s | none => u.addressPostal)
    addressRegion := (match upd.region with | some s => some s | none => u.addressRegion) }

/-- `prisma.user.update({ where: { phone: phoneNumber }, data: updates })`. -/
def updateUserByPhone (db : DB) (pn : List Char) (upd : UserUpdates) : DB :=
  { db with users := db.users.map (fun u => if u.phone = pn then applyUserUpdates upd u else u) }

/-- The link check and creation at the end of CASE 1: reject when the
(provider, providerAccountId) link belongs to a different user, create the
link bound to `userByPhone` when absent, else no-op; then allow. -/
def signInLinkStep (f : SignInFaults) (prov paid : String) (b : DBUser)
    (emailAddr : Option String) (db : DB) : Except DB (Outcome × DB) :=
  if f.failAccountFind then .error db
  else
    match findAccount db prov paid with
    | some la =>
      if la.userId ≠ b.id then
        .ok (.redirect .AccountNotLinked emailAddr, db)
      else
        .ok (.allow, db)
    | none =>
      if f.failAccountCreate then .error db
      else .ok (.allow, { db with accounts := db.accounts ++ [⟨b.id, prov, paid⟩] })

/-- The body of the reconciler once provider, providerAccountId and a truthy
normalized phone number are in hand (CASE 1 / CASE 2 / CASE 3). -/
def signInCore (f : SignInFaults) (prov paid : String) (userId : Option String)
    (emailAddr : Option String) (pn : List Char) (ad : AddressData) (db : DB) :
    Except DB (Outcome × DB) :=
  if f.failFindUserByPhone then .error db
  else
    let userByPhone := findUserByPhone db pn
    if optStrTruthy emailAddr ∧ f.failFindUserByEmail then .error db
    else
      let userByEmail := match emailAddr with
        | some e => if e ≠ "" then findUserByEmail db e else none
        | none => none
      match userByPhone with
      | some b =>
        let upd := mkCase1Updates b emailAddr pn ad
        if upd.isEmpty = false ∧ optStrTruthy userId then
          if f.failUserUpdate then .error db
          else signInLinkStep f prov paid b emailAddr (updateUserByPhone db pn upd)
        else signInLinkStep f prov paid b emailAddr db
      | none =>
        match userByEmail with
        | some _ => .ok (.redirect .AccountNotLinked emailAddr, db)
        | none => .ok (.redirect .UserNotFound emailAddr, db)

/-- The protected body of the `signIn` callback (everything inside `try`).
An `error` result is a thrown exception, carrying the store at the point of
the throw. -/
def signInBody (f : SignInFaults) (inp : SignInInput) (db : DB) :
    Except DB (Outcome × DB) :=
  let emailAddr := firstTruthy inp.profileEmail inp.userEmail
  let phoneNumber := normalizePhone inp.profilePhoneNumber
  let addressData := mapAddress inp.profileAddress
  match inp.provider, inp.providerAccountId with
  | some prov, some paid =>
    if prov = "" ∨ paid = "" then .ok (.allow, db)
    else
      match phoneNumber with
      | none => .ok (.allow, db)
      | some pn =>
        if pn = [] then .ok (.allow, db)
        else signInCore f prov paid inp.userId emailAddr pn addressData db
  | _, _ => .ok (.allow, db)

/-- The full `signIn` callback: the body wrapped in
`try { ... } catch { return true; }` — a thrown exception is converted to
allow, keeping whatever writes had already been committed. -/
def signInCallback (f : SignInFaults) (inp : SignInInput) (db : DB) :
    Outcome × DB :=
  match signInBody f inp db with
  | .ok r => r
  | .error db' => (.allow, db')

/-! ## The post-authentication event (`events.signIn` in lib/auth.ts) -/

/-- The `updates` object built by `events.signIn`, with only the
Prisma-effective (defined) values; `hasAddressKeys` separately records
whether `Object.assign(updates, addressData)` contributed keys (it
contributes the three address keys, possibly `undefined`-valued, exactly
when `profile.address` was an object). -/
structure EventUpdates where
  phone : Option (List Char)
  email : Option String
  street : Option String
  postal : Option String
  region : Option String
  lastLoginAt : Option Nat
deriving DecidableEq, Repr

/-- `events.signIn`'s update computation:
`if (phone) updates.phone = phone;`
`if (emailAddr && !user.email) updates.email = emailAddr;`
`Object.assign(updates, addressData);`
`if (user.lastLoginAt) updates.lastLoginAt = new Date();`. -/
def mkEventUpdates (u : DBUser) (profilePhone : Option (List Char))
    (profileEmail : Option String) (profileAddress : Option AddressInput)
    (now : Nat) : EventUpdates :=
  let phone := normalizePhone profilePhone
  let ad := mapAddress profileAddress
  { phone := (match phone with | some p => if p = [] then none else some p | none => none)
    email := if optStrTruthy profileEmail ∧ optStrFalsy u.email then profileEmail else none
    street := ad.address_street
    postal := ad.address_postal_code
    region := ad.address_region
    lastLoginAt := (match u.lastLoginAt with | some _ => some now | none => none) }

/-- `Object.keys(updates).length` is positive. The three address keys exist
whenever `profile.address` was an object, even with `undefined` values. -/
def eventHasKeys (e : EventUpdates) (profileAddress : Option AddressInput) : Bool :=
  e.phone.isSome || e.email.isSome || profileAddress.isSome || e.lastLoginAt.isSome

/-- Apply the event updates to a user row (Prisma ignores `undefined`
fields). -/
def applyEventUpdates (e : EventUpdates) (u : DBUser) : DBUser :=
  { u with
    phone := (match e.phone with | some p => p | none => u.phone)
    email := (match e.email with | some s => some s | none => u.email)
    addressStreet := (match e.street with | some s => some s | none => u.addressStreet)
    addressPostal := (match e.postal with | some s => some s | none => u.addressPostal)
    addressRegion := (match e.region with | some s => some s | none => u.addressRegion)
    lastLoginAt := (match e.lastLoginAt with | some t => some t | none => u.lastLoginAt) }

/-- `events.signIn`: runs after a successful sign-in. Returns unchanged for
non-Vipps providers; otherwise syncs profile fields onto the user row (by id)
and stamps `lastLoginAt` only when it already had a value. `u` is the
adapter-resolved user object (mirror of the user's row), `now` the current
time. -/
def eventSignIn (provider : Option String) (profilePhone : Option (List Char))
    (profileEmail : Option String) (profileAddress : Option AddressInput)
    (u : DBUser) (now : Nat) (db : DB) : DB :=
  if provider ≠ some "vipps" then db
  else
    let e := mkEventUpdates u profilePhone profileEmail profileAddress now
    if eventHasKeys e profileAddress then
      { db with users := db.users.map (fun x => if x.id = u.id then applyEventUpdates e x else x) }
    else db

/-! ## Sessions and admin route handlers -/

/-- The session data the route handlers read (`session.user.id`,
`session.user.role`). `none` models both a missing session and a session
without a `user`. -/
structure Session where
  userId : String
  role : String
deriving DecidableEq, Repr

/-- The guard `!session?.user || session.user.role !== "super_admin"` is
false. -/
def isSuperAdmin : Option Session → Bool
  | none => false
  | some s => s.role = "super_admin"

/-- GET /api/users: admin-only listing. Field projection and the
`createdAt desc` ordering are delegated to the datastore model (rows are
returned in stored order). -/
def usersGET (session : Option Session) (db : DB) :
    Except (String × Nat) (List DBUser) :=
  if isSuperAdmin session then .ok db.users
  else .error ("Unauthorized", 403)

/-- GET /api/login-events: admin-only feed, `take: 200`. The
`loggedAt desc` ordering is delegated to the datastore model. -/
def loginEventsGET (session : Option Session) (db : DB) :
    Except (String × Nat) (List LoginEvent) :=
  if isSuperAdmin session then .ok (db.loginEvents.take 200)
  else .error ("Unauthorized", 403)

/-- Result of a mutating route handler: `ok` is the 200 `{ ok: true }`
response, `fail` carries the error message and HTTP status. -/
inductive ApiResult
  | ok
  | fail (msg : String) (status : Nat)
deriving DecidableEq, Repr

/-- One element of the `accesses` payload array of
PATCH /api/users/[userId]. `customerId` is `none` when the field is absent
or not an integer number (`Number.isInteger` fails); `role` is `none` when
absent. The outer `Option` is a `null` array element. -/
structure RawUserAccessRow where
  customerId : Option Int
  role : Option String
deriving DecidableEq, Repr

/-- One element of the `accesses` payload array of
PATCH /api/customers/[customerId]/accesses. `userId` is `none` when absent
or not a string. -/
structure RawCustomerAccessRow where
  userId : Option String
  role : Option String
deriving DecidableEq, Repr

/-- A request body: `malformed` models `request.json()` throwing; otherwise
`accesses` is `none` when the key is absent or not an array
(`Array.isArray` fails). -/
inductive PatchBody (α : Type)
  | malformed
  | parsed (accesses : Option (List (Option α)))
deriving DecidableEq, Repr

/-- The normalization loop of PATCH /api/users/[userId]: keep entries with a
truthy integer `customerId` and role `"admin"` or `"user"`. -/
def normalizeUserRows (rows : List (Option RawUserAccessRow)) :
    List (Int × String) :=
  rows.filterMap (fun r =>
    match r with
    | none => none
    | some e =>
      match e.customerId, e.role with
      | some c, some role =>
        if c ≠ 0 ∧ (role = "admin" ∨ role = "user") then some (c, role) else none
      | _, _ => none)

/-- The normalization loop of PATCH /api/customers/[customerId]/accesses:
keep entries with a truthy string `userId` and role `"admin"` or `"user"`. -/
def normalizeCustomerRows (rows : List (Option RawCustomerAccessRow)) :
    List (String × String) :=
  rows.filterMap (fun r =>
    match r with
    | none => none
    | some e =>
      match e.userId, e.role with
      | some uid, some role =>
        if uid ≠ "" ∧ (role = "admin" ∨ role = "user") then some (uid, role) else none
      | _, _ => none)

/-- PATCH /api/users/[userId]: super_admin-only transactional
delete-then-insert of the user's grant set. The composite unique key
(user_id, customer_id) (see the `ON CONFLICT (user_id, customer_id)` clause
in src/SQL) makes `createMany` throw when two inserted rows share a
customerId; the transaction then rolls back and the handler returns 500.
Foreign-key existence of the referenced customers is outside this model. -/
def patchUserAccesses (session : Option Session) (userId : String)
    (body : PatchBody RawUserAccessRow) (db : DB) : ApiResult × DB :=
  if ¬ isSuperAdmin session then (.fail "Unauthorized" 403, db)
  else if userId = "" then (.fail "Ugyldig bruker-id" 400, db)
  else
    match body with
    | .malformed => (.fail "Ugyldig payload" 400, db)
    | .parsed accesses =>
      let rows := match accesses with | some l => l | none => []
      let normalized := normalizeUserRows rows
      if (normalized.map Prod.fst).Nodup then
        (.ok, { db with grants := db.grants.filter (fun g => g.userId ≠ userId)
          ++ normalized.map (fun r => ⟨userId, r.1, r.2⟩) })
      else (.fail "Kunne ikke oppdatere brukertilgangene" 500, db)

/-- PATCH /api/customers/[customerId]/accesses: super_admin-only
transactional delete-then-insert of the customer's grant set.
`Number.parseInt` of the route segment is abstracted as `Option Int`
(`none` = NaN). Duplicate userIds in the inserted rows violate the
(user_id, customer_id) unique key and roll the transaction back.
Foreign-key existence of the referenced users is outside this model. -/
def patchCustomerAccesses (session : Option Session) (rawCustomerId : Option Int)
    (body : PatchBody RawCustomerAccessRow) (db : DB) : ApiResult × DB :=
  if ¬ isSuperAdmin session then (.fail "Unauthorized" 403, db)
  else
    match rawCustomerId with
    | none => (.fail "Ugyldig kunde-id" 400, db)
    | some cid =>
      if cid ≤ 0 then (.fail "Ugyldig kunde-id" 400, db)
      else
        match body with
        | .malformed => (.fail "Ugyldig payload" 400, db)
        | .parsed accesses =>
          let rows := match accesses with | some l => l | none => []
          let normalized := normalizeCustomerRows rows
          if (normalized.map Prod.fst).Nodup then
            (.ok, { db with grants := db.grants.filter (fun g => g.customerId ≠ cid)
              ++ normalized.map (fun r => ⟨r.1, cid, r.2⟩) })
          else (.fail "Kunne ikke oppdatere kundetilganger" 500, db)

/-! ## GET /api/companies -/

/-- The parts of an inbound HTTP request to /api/companies: the `q` query
parameter and the credential material (cookies / session) the request
carries. -/
structure CompaniesRequest where
  q : Option String
  session : Option Session
deriving DecidableEq, Repr

/-- The shape each company row is mapped to in the JSON response. -/
structure CompanyOut where
  id : Int
  customerId : Int
  name : String
  organizationNumber : String
deriving DecidableEq, Repr

def charsPrefixOf : List Char → List Char → Bool
  | [], _ => true
  | _ :: _, [] => false
  | a :: as, b :: bs => a = b && charsPrefixOf as bs

def containsChars (needle : List Char) : List Char → Bool
  | [] => charsPrefixOf needle []
  | b :: bs => charsPrefixOf needle (b :: bs) || containsChars needle bs

/-- Prisma `contains` with `mode: "insensitive"`: case-insensitive substring
test. -/
def containsCI (needle hay : String) : Bool :=
  containsChars needle.toLower.toList hay.toLower.toList

/-- The `OR` filter of GET /api/companies: name contains, organization
number contains, or (when `Number(query)` is not NaN) customer_id equality.
`Number(query)` is abstracted as decimal integer parsing; a numeric but
non-integral query adds an equality test on the integer column that no row
can satisfy, which coincides with omitting it. -/
def companyMatches (query : String) (c : Customer) : Bool :=
  containsCI query c.name || containsCI query c.organization_number ||
    (match query.toInt? with | some n => c.customer_id = n | none => false)

/-- GET /api/companies: reads only `q` from the request
(`searchParams.get("q")?.trim() ?? ""`), does not consult the session, and
returns the (mapped) company listing. `orderBy name asc` is delegated to the
datastore model. -/
def companiesGET (req : CompaniesRequest) (db : DB) : List CompanyOut :=
  let query := (match req.q with | some s => s.trim | none => "")
  let results := if query = "" then db.customers else db.customers.filter (companyMatches query)
  results.map (fun c => ⟨c.customer_id, c.customer_id, c.name, c.organization_number⟩)

/-! ## Helper lemmas -/

/-- `normalizePhone` never produces the empty string. -/
theorem normalizePhone_ne_nil {o : Option (List Char)} {pn : List Char}
    (h : normalizePhone o = some pn) : pn ≠ [] := by
  cases o with
  | none => simp [normalizePhone] at h
  | some input =>
    by_cases hie : input = []
    · subst hie; simp [normalizePhone] at h
    · simp only [normalizePhone, if_neg hie] at h
      by_cases hplus : startsWithPlus (trimChars input) = true
      · rw [hplus, if_pos rfl] at h
        rcases ht : trimChars input with _ | ⟨c, cs⟩
        · rw [ht] at hplus; simp [startsWithPlus] at hplus
        · rw [ht] at h
          injection h with h
          subst h
          simp
      · rw [Bool.not_eq_true] at hplus
        rw [hplus, if_neg (by simp)] at h
        by_cases hd : trimChars input ≠ [] ∧ (trimChars input).all Char.isDigit = true
        · rw [if_pos hd] at h
          injection h with h
          subst h
          simp
        · rw [if_neg hd] at h
          exact absurd h (by simp)

/-- `firstTruthy` never produces the empty string. -/
theorem firstTruthy_ne_empty {a b : Option String} {e : String}
    (h : firstTruthy a b = some e) : e ≠ "" := by
  intro he
  subst he
  rcases a with _ | s
  · rcases b with _ | t
    · simp [firstTruthy] at h
    · by_cases ht : t = "" <;> simp [firstTruthy, ht] at h
  · by_cases hs : s = ""
    · rcases b with _ | t
      · simp [firstTruthy, hs] at h
      · by_cases ht : t = "" <;> simp [firstTruthy, hs, ht] at h
    · simp [firstTruthy, hs] at h

theorem applyUserUpdates_id (upd : UserUpdates) (u : DBUser) :
    (applyUserUpdates upd u).id = u.id := rfl

theorem applyEventUpdates_id (e : EventUpdates) (u : DBUser) :
    (applyEventUpdates e u).id = u.id := rfl

theorem updateUserByPhone_accounts (db : DB) (pn : List Char) (upd : UserUpdates) :
    (updateUserByPhone db pn upd).accounts = db.accounts := rfl

theorem updateUserByPhone_grants (db : DB) (pn : List Char) (upd : UserUpdates) :
    (updateUserByPhone db pn upd).grants = db.grants := rfl

/-- Distinct-phone pairwise invariant pins the row found by phone. -/
theorem phone_unique_eq {l : List DBUser} {v b : DBUser}
    (hunique : l.Pairwise (fun u w => u.phone ≠ w.phone))
    (hv : v ∈ l) (hb : b ∈ l) (h : v.phone = b.phone) : v = b := by
  by_contra hne
  have hsym : Symmetric (fun u w : DBUser => u.phone ≠ w.phone) :=
    fun x y hxy => fun e => hxy e.symm
  exact absurd h (hunique.forall hsym hv hb hne)

/-! ## C4: missing correlation data -/

/-- C4: when `provider` or `providerAccountId` is falsy, or the normalized
phone number is falsy, the reconciler returns allow and performs no store
change of its own. -/
theorem C4_missing_correlation_allows (inp : SignInInput) (db : DB)
    (h : optStrTruthy inp.provider = false ∨
         optStrTruthy inp.providerAccountId = false ∨
         normalizePhone inp.profilePhoneNumber = none ∨
         normalizePhone inp.profilePhoneNumber = some []) :
    signInCallback noFaults inp db = (Outcome.allow, db) := by
  rcases hp : inp.provider with _ | prov
  · simp [signInCallback, signInBody, hp]
  · rcases hq : inp.providerAccountId with _ | paid
    · simp [signInCallback, signInBody, hp, hq]
    · rcases h with h | h | h | h
      · rw [hp] at h
        have hpe : prov = "" := by simpa [optStrTruthy] using h
        simp [signInCallback, signInBody, hp, hq, hpe]
      · rw [hq] at h
        have hpe : paid = "" := by simpa [optStrTruthy] using h
        simp [signInCallback, signInBody, hp, hq, hpe]
      · by_cases hpp : prov = "" ∨ paid = "" <;>
          simp [signInCallback, signInBody, hp, hq, hpp, h]
      · by_cases hpp : prov = "" ∨ paid = "" <;>
          simp [signInCallback, signInBody, hp, hq, hpp, h]

/-- C4 witness: a callback with no provider account id. -/
theorem C4_witness :
    signInCallback noFaults
      ⟨some "vipps", none, some "u1", none, some "a@b.c", some ['+', '1'], none⟩
      ⟨[], [], [], [], []⟩
      = (Outcome.allow, ⟨[], [], [], [], []⟩) :=
  C4_missing_correlation_allows _ _ (Or.inr (Or.inl (by decide)))

/-! ## C5: fail-open exception handling -/

/-- C5: an exception raised at any Prisma call site inside the reconciler is
caught and converted to allow (with whatever writes had committed); it never
surfaces as a rejection and never propagates (the callback is total). -/
theorem C5_fail_open (f : SignInFaults) (inp : SignInInput) (db db' : DB)
    (h : signInBody f inp db = Except.error db') :
    signInCallback f inp db = (Outcome.allow, db') := by
  unfold signInCallback
  rw [h]

/-- C5 witness: a throwing user-by-phone lookup on a concrete input. -/
theorem C5_witness :
    signInCallback ⟨true, false, false, false, false⟩
      ⟨some "vipps", some "pa1", some "u1", none, none, some ['+', '1'], none⟩
      ⟨[], [], [], [], []⟩
      = (Outcome.allow, ⟨[], [], [], [], []⟩) :=
  C5_fail_open _ _ _ _ rfl

/-! ## C10: /api/companies ignores the session -/

/-- C10: the companies handler reads only the `q` query parameter of the
request; two requests with the same query string produce the same company
list no matter what session (or none) each carries, so the full listing is
reachable unauthenticated and is independent of the requester's identity. -/
theorem C10_companies_session_independent (req1 req2 : CompaniesRequest)
    (db : DB) (h : req1.q = req2.q) :
    companiesGET req1 db = companiesGET req2 db := by
  unfold companiesGET
  rw [h]

/-- C10 witness: an unauthenticated request and a super_admin request with
the same query observe the same result. -/
theorem C10_witness :
    companiesGET ⟨some "acme", none⟩
        ⟨[], [], [], [], [⟨7, "Acme AS", "999888777"⟩]⟩
      = companiesGET ⟨some "acme", some ⟨"u1", "super_admin"⟩⟩
        ⟨[], [], [], [], [⟨7, "Acme AS", "999888777"⟩]⟩ :=
  C10_companies_session_independent _ _ _ rfl

/-! ## C8: admin-only endpoint failures -/

/-- C8 counterexample: the claim says a missing session yields `Unauthorized`
while an authenticated non-super_admin session yields a distinct `Forbidden`;
in the code both cases produce the identical `{"error": "Unauthorized"}`
response with status 403 on GET /api/users and GET /api/login-events — the
insufficient-role failure is not distinguished and is not labelled
`Forbidden`. -/
theorem C8_counterexample :
    usersGET (some ⟨"u1", "customer"⟩) ⟨[], [], [], [], []⟩
      = usersGET none ⟨[], [], [], [], []⟩ ∧
    usersGET (some ⟨"u1", "customer"⟩) ⟨[], [], [], [], []⟩
      = Except.error ("Unauthorized", 403) ∧
    loginEventsGET (some ⟨"u1", "customer"⟩) ⟨[], [], [], [], []⟩
      = loginEventsGET none ⟨[], [], [], [], []⟩ ∧
    loginEventsGET (some ⟨"u1", "customer"⟩) ⟨[], [], [], [], []⟩
      = Except.error ("Unauthorized", 403) := by
  refine ⟨rfl, rfl, rfl, rfl⟩

/-- C8 (amended): on the admin-only endpoints GET /api/users and
GET /api/login-events, a request with no valid session and a request with an
authenticated session whose global role is not super_admin both fail with
the same `Unauthorized` error and status 403; the two failure kinds are not
distinguished in the response. -/
theorem C8_admin_endpoints_unauthorized (session : Option Session) (db : DB)
    (h : session = none ∨ ∃ s, session = some s ∧ s.role ≠ "super_admin") :
    usersGET session db = Except.error ("Unauthorized", 403) ∧
    loginEventsGET session db = Except.error ("Unauthorized", 403) := by
  have hguard : isSuperAdmin session = false := by
    rcases h with h | ⟨s, hs, hrole⟩
    · rw [h]; rfl
    · rw [hs]; simp [isSuperAdmin, hrole]
  constructor
  · unfold usersGET
    rw [hguard, if_neg (by simp)]
  · unfold loginEventsGET
    rw [hguard, if_neg (by simp)]

/-- C8 witness: a customer-role session is rejected on both endpoints. -/
theorem C8_witness :
    usersGET (some ⟨"u7", "customer"⟩) ⟨[], [], [], [], []⟩
      = Except.error ("Unauthorized", 403) ∧
    loginEventsGET (some ⟨"u7", "customer"⟩) ⟨[], [], [], [], []⟩
      = Except.error ("Unauthorized", 403) :=
  C8_admin_endpoints_unauthorized _ _ (Or.inr ⟨⟨"u7", "customer"⟩, rfl, by decide⟩)

/-! ## C3: UserNotFound -/

/-- With truthy provider data and a truthy normalized phone, the callback
body reaches the case analysis. -/
theorem signInBody_eq_core {f : SignInFaults} {inp : SignInInput} {db : DB}
    {prov paid : String} {pn : List Char}
    (hprov : inp.provider = some prov) (hprovne : prov ≠ "")
    (hpaid : inp.providerAccountId = some paid) (hpaidne : paid ≠ "")
    (hpn : normalizePhone inp.profilePhoneNumber = some pn) :
    signInBody f inp db =
      signInCore f prov paid inp.userId
        (firstTruthy inp.profileEmail inp.userEmail) pn
        (mapAddress inp.profileAddress) db := by
  have hpnne := normalizePhone_ne_nil hpn
  simp only [signInBody, hprov, hpaid, hpn]
  rw [if_neg (by simp [hprovne, hpaidne]), if_neg hpnne]

/-- C3: when provider, providerAccountId and a normalized phone are all
present but no user row has that phone and none has the asserted email (or
no email was asserted), the reconciler redirects with `UserNotFound` and the
store is unchanged (no User, ProviderAccount, or AccessGrant row written). -/
theorem C3_user_not_found (inp : SignInInput) (db : DB)
    (prov paid : String) (pn : List Char)
    (hprov : inp.provider = some prov) (hprovne : prov ≠ "")
    (hpaid : inp.providerAccountId = some paid) (hpaidne : paid ≠ "")
    (hpn : normalizePhone inp.profilePhoneNumber = some pn)
    (hnophone : findUserByPhone db pn = none)
    (hnoemail : ∀ e, firstTruthy inp.profileEmail inp.userEmail = some e →
      findUserByEmail db e = none) :
    signInCallback noFaults inp db
      = (Outcome.redirect AuthError.UserNotFound
          (firstTruthy inp.profileEmail inp.userEmail), db) := by
  unfold signInCallback
  rw [signInBody_eq_core hprov hprovne hpaid hpaidne hpn]
  rcases hea : firstTruthy inp.profileEmail inp.userEmail with _ | e
  · simp [signInCore, noFaults, hea, hnophone]
  · have hene : e ≠ "" := firstTruthy_ne_empty hea
    have hfe := hnoemail e hea
    simp [signInCore, noFaults, hea, hnophone, hene, hfe]

/-- C3 witness: an unprovisioned phone and email are rejected with
`UserNotFound` and no rows are written. -/
theorem C3_witness :
    signInCallback noFaults
      ⟨some "vipps", some "pa9", none, none, some "new@example.com",
        some ['+', '4', '7', '9'], none⟩
      ⟨[⟨"a", ['+', '1'], some "a@x.no", none, none, none, none⟩], [], [], [], []⟩
      = (Outcome.redirect AuthError.UserNotFound (some "new@example.com"),
          ⟨[⟨"a", ['+', '1'], some "a@x.no", none, none, none, none⟩], [], [], [], []⟩) := by
  have h := C3_user_not_found
    ⟨some "vipps", some "pa9", none, none, some "new@example.com",
      some ['+', '4', '7', '9'], none⟩
    ⟨[⟨"a", ['+', '1'], some "a@x.no", none, none, none, none⟩], [], [], [], []⟩
    "vipps" "pa9" ['+', '4', '7', '9'] rfl (by decide) rfl (by decide) (by decide)
    (by decide)
    (by
      intro e he
      rw [show firstTruthy (some "new@example.com") none = some "new@example.com" from rfl] at he
      injection he with he
      subst he
      decide)
  exact h

/-! ## C1: conflicting provider link -/

theorem findAccount_updateUserByPhone (db : DB) (pn : List Char)
    (upd : UserUpdates) (prov paid : String) :
    findAccount (updateUserByPhone db pn upd) prov paid
      = findAccount db prov paid := rfl

/-- C1 counterexample: the claim says user B's profile fields stay unchanged
when the sign-in is rejected with `AccountNotLinked`, but the profile sync
runs before the link check: with B(phone `+2`, no email) and the provider
account linked to A, an asserted email is written onto B's row even though
the sign-in is then rejected. -/
theorem C1_counterexample :
    (signInCallback noFaults
      ⟨some "vipps", some "pa1", some "a", none, some "x@y.no", some ['+', '2'], none⟩
      ⟨[⟨"a", ['+', '1'], some "a@x.no", none, none, none, none⟩,
        ⟨"b", ['+', '2'], none, none, none, none, none⟩],
       [⟨"a", "vipps", "pa1"⟩], [], [], []⟩).1
      = Outcome.redirect AuthError.AccountNotLinked (some "x@y.no") ∧
    (signInCallback noFaults
      ⟨some "vipps", some "pa1", some "a", none, some "x@y.no", some ['+', '2'], none⟩
      ⟨[⟨"a", ['+', '1'], some "a@x.no", none, none, none, none⟩,
        ⟨"b", ['+', '2'], none, none, none, none, none⟩],
       [⟨"a", "vipps", "pa1"⟩], [], [], []⟩).2.users
      ≠ [⟨"a", ['+', '1'], some "a@x.no", none, none, none, none⟩,
         ⟨"b", ['+', '2'], none, none, none, none, none⟩] := by
  constructor
  · decide
  · decide

/-- C1 (amended): when the normalized phone resolves to user B and the
(provider, providerAccountId) link belongs to a different user A, the
reconciler redirects with `AccountNotLinked` carrying the asserted email,
creates no ProviderAccount row, does not reassign the existing link, leaves
the grants and every user other than B unchanged, and any change to B's row
is limited to the pre-check profile sync (email fill-in / address
overwrite): B's id and phone are unchanged. Phone uniqueness of the user
table (§3 invariant) is assumed. -/
theorem C1_conflicting_link_rejected (inp : SignInInput) (db : DB)
    (prov paid : String) (pn : List Char) (b : DBUser) (la : DBAccount)
    (hprov : inp.provider = some prov) (hprovne : prov ≠ "")
    (hpaid : inp.providerAccountId = some paid) (hpaidne : paid ≠ "")
    (hpn : normalizePhone inp.profilePhoneNumber = some pn)
    (hb : findUserByPhone db pn = some b)
    (hla : findAccount db prov paid = some la)
    (hdiff : la.userId ≠ b.id)
    (hunique : db.users.Pairwise (fun u w => u.phone ≠ w.phone)) :
    (signInCallback noFaults inp db).1
      = Outcome.redirect AuthError.AccountNotLinked
          (firstTruthy inp.profileEmail inp.userEmail) ∧
    (signInCallback noFaults inp db).2.accounts = db.accounts ∧
    (signInCallback noFaults inp db).2.grants = db.grants ∧
    (∀ u ∈ db.users, u.phone ≠ pn → u ∈ (signInCallback noFaults inp db).2.users) ∧
    (∀ u ∈ (signInCallback noFaults inp db).2.users,
      u ∈ db.users ∨ (u.id = b.id ∧ u.phone = b.phone)) := by
  have hb' : db.users.find? (fun u => decide (u.phone = pn)) = some b := hb
  have hbp : b.phone = pn := by
    have := List.find?_some hb'
    simpa using this
  have hbm : b ∈ db.users := List.mem_of_find?_eq_some hb'
  by_cases hcond :
      ((mkCase1Updates b (firstTruthy inp.profileEmail inp.userEmail) pn
        (mapAddress inp.profileAddress)).isEmpty = false ∧
       optStrTruthy inp.userId = true)
  · have hr : signInCallback noFaults inp db
        = (Outcome.redirect AuthError.AccountNotLinked
            (firstTruthy inp.profileEmail inp.userEmail),
           updateUserByPhone db pn
            (mkCase1Updates b (firstTruthy inp.profileEmail inp.userEmail) pn
              (mapAddress inp.profileAddress))) := by
      unfold signInCallback
      rw [signInBody_eq_core hprov hprovne hpaid hpaidne hpn]
      simp [signInCore, noFaults, hb, hcond, signInLinkStep,
        findAccount_updateUserByPhone, hla, hdiff]
    rw [hr]
    refine ⟨rfl, rfl, rfl, ?_, ?_⟩
    · intro u hu hne
      exact List.mem_map.mpr ⟨u, hu, by rw [if_neg hne]⟩
    · intro u' hu'
      obtain ⟨v, hv, hfv⟩ := List.mem_map.mp hu'
      by_cases hvp : v.phone = pn
      · have hveq : v = b := phone_unique_eq hunique hv hbm (by rw [hvp, hbp])
        right
        rw [← hfv, if_pos hvp]
        subst hveq
        constructor
        · exact applyUserUpdates_id _ _
        · simp [applyUserUpdates, mkCase1Updates, hbp]
      · left
        rw [← hfv, if_neg hvp]
        exact hv
  · have hr : signInCallback noFaults inp db
        = (Outcome.redirect AuthError.AccountNotLinked
            (firstTruthy inp.profileEmail inp.userEmail), db) := by
      unfold signInCallback
      rw [signInBody_eq_core hprov hprovne hpaid hpaidne hpn]
      simp [signInCore, noFaults, hb, hcond, signInLinkStep, hla, hdiff]
    rw [hr]
    exact ⟨rfl, rfl, rfl, fun u hu _ => hu, fun u hu => Or.inl hu⟩

/-- C1 witness: the amended theorem applied to the concrete two-user store
with a conflicting link. -/
theorem C1_witness :
    (signInCallback noFaults
      ⟨some "vipps", some "pa1", some "a", none, some "x@y.no", some ['+', '2'], none⟩
      ⟨[⟨"a", ['+', '1'], some "a@x.no", none, none, none, none⟩,
        ⟨"b", ['+', '2'], none, none, none, none, none⟩],
       [⟨"a", "vipps", "pa1"⟩], [], [], []⟩).1
      = Outcome.redirect AuthError.AccountNotLinked (some "x@y.no") ∧
    (signInCallback noFaults
      ⟨some "vipps", some "pa1", some "a", none, some "x@y.no", some ['+', '2'], none⟩
      ⟨[⟨"a", ['+', '1'], some "a@x.no", none, none, none, none⟩,
        ⟨"b", ['+', '2'], none, none, none, none, none⟩],
       [⟨"a", "vipps", "pa1"⟩], [], [], []⟩).2.accounts
      = [⟨"a", "vipps", "pa1"⟩] := by
  have h := C1_conflicting_link_rejected
    ⟨some "vipps", some "pa1", some "a", none, some "x@y.no", some ['+', '2'], none⟩
    ⟨[⟨"a", ['+', '1'], some "a@x.no", none, none, none, none⟩,
      ⟨"b", ['+', '2'], none, none, none, none, none⟩],
     [⟨"a", "vipps", "pa1"⟩], [], [], []⟩
    "vipps" "pa1" ['+', '2']
    ⟨"b", ['+', '2'], none, none, none, none, none⟩
    ⟨"a", "vipps", "pa1"⟩
    rfl (by decide) rfl (by decide) (by decide) (by decide) (by decide)
    (by decide) (by decide)
  exact ⟨h.1, h.2.1⟩

/-! ## C7: lastLoginAt stamping in the post-authentication event -/

theorem find?_map_of_id {f : DBUser → DBUser} (hf : ∀ x, (f x).id = x.id)
    (l : List DBUser) (i : String) :
    (l.map f).find? (fun x => decide (x.id = i))
      = (l.find? (fun x => decide (x.id = i))).map f := by
  induction l with
  | nil => rfl
  | cons a t ih =>
    have hfa : decide ((f a).id = i) = decide (a.id = i) := by rw [hf]
    cases hd : decide (a.id = i) with
    | false =>
      rw [List.map_cons, List.find?_cons, List.find?_cons, hfa, hd]
      exact ih
    | true =>
      rw [List.map_cons, List.find?_cons, List.find?_cons, hfa, hd]
      rfl

/-- The six profile-field equations after applying the event updates to the
user's own row. -/
theorem applyEvent_mk_fields (u : DBUser) (pp : Option (List Char))
    (pe : Option String) (pa : Option AddressInput) (now : Nat) :
    (applyEventUpdates (mkEventUpdates u pp pe pa now) u).lastLoginAt
      = (match u.lastLoginAt with | some _ => some now | none => none) ∧
    (applyEventUpdates (mkEventUpdates u pp pe pa now) u).phone
      = (match normalizePhone pp with | some p => p | none => u.phone) ∧
    (applyEventUpdates (mkEventUpdates u pp pe pa now) u).email
      = (if optStrTruthy pe ∧ optStrFalsy u.email then pe else u.email) ∧
    (applyEventUpdates (mkEventUpdates u pp pe pa now) u).addressStreet
      = (match (mapAddress pa).address_street with | some s => some s | none => u.addressStreet) ∧
    (applyEventUpdates (mkEventUpdates u pp pe pa now) u).addressPostal
      = (match (mapAddress pa).address_postal_code with | some s => some s | none => u.addressPostal) ∧
    (applyEventUpdates (mkEventUpdates u pp pe pa now) u).addressRegion
      = (match (mapAddress pa).address_region with | some s => some s | none => u.addressRegion) := by
  refine ⟨?_, ?_, ?_, ?_, ?_, ?_⟩
  · cases hll : u.lastLoginAt <;> simp [applyEventUpdates, mkEventUpdates, hll]
  · cases hph : normalizePhone pp with
    | none => simp [applyEventUpdates, mkEventUpdates, hph]
    | some p =>
      have hpne : p ≠ [] := normalizePhone_ne_nil hph
      simp [applyEventUpdates, mkEventUpdates, hph, hpne]
  · by_cases hec : (optStrTruthy pe ∧ optStrFalsy u.email)
    · rcases hpe : pe with _ | s
      · rw [hpe] at hec
        simp [optStrTruthy] at hec
      · rw [hpe] at hec
        simp [applyEventUpdates, mkEventUpdates, hec.1, hec.2]
    · simp [applyEventUpdates, mkEventUpdates, hec]
  · cases has : (mapAddress pa).address_street <;>
      simp [applyEventUpdates, mkEventUpdates, has]
  · cases has : (mapAddress pa).address_postal_code <;>
      simp [applyEventUpdates, mkEventUpdates, has]
  · cases has : (mapAddress pa).address_region <;>
      simp [applyEventUpdates, mkEventUpdates, has]

/-- When `Object.keys(updates)` is empty, no effective update existed. -/
theorem eventHasKeys_false_fields (u : DBUser) (pp : Option (List Char))
    (pe : Option String) (pa : Option AddressInput) (now : Nat)
    (hk : eventHasKeys (mkEventUpdates u pp pe pa now) pa = false) :
    u.lastLoginAt = none ∧ normalizePhone pp = none ∧
    ¬(optStrTruthy pe ∧ optStrFalsy u.email) ∧ pa = none := by
  unfold eventHasKeys at hk
  simp only [Bool.or_eq_false_iff] at hk
  obtain ⟨⟨⟨hph, hem⟩, hpa⟩, hll⟩ := hk
  have hpa' : pa = none := by
    cases pa with
    | none => rfl
    | some a => simp at hpa
  refine ⟨?_, ?_, ?_, hpa'⟩
  · cases hll' : u.lastLoginAt with
    | none => rfl
    | some t => simp [mkEventUpdates, hll'] at hll
  · cases hph' : normalizePhone pp with
    | none => rfl
    | some p =>
      have hpne : p ≠ [] := normalizePhone_ne_nil hph'
      simp [mkEventUpdates, hph', hpne] at hph
  · intro hec
    rcases hpe : pe with _ | s
    · rw [hpe] at hec
      simp [optStrTruthy] at hec
    · rw [hpe] at hec
      simp [mkEventUpdates, hpe, hec] at hem

/-- C7: for a successful Vipps sign-in, the post-authentication event stamps
`lastLoginAt` with the current time exactly when it already held a value
(a user whose `lastLoginAt` is null keeps it null), while still syncing
phone, email-if-previously-null, and the address fields from the asserted
profile onto the user's row. -/
theorem C7_lastLogin_stamp (pp : Option (List Char)) (pe : Option String)
    (pa : Option AddressInput) (u : DBUser) (now : Nat) (db : DB)
    (hu : db.users.find? (fun x => decide (x.id = u.id)) = some u) :
    ∃ u', (eventSignIn (some "vipps") pp pe pa u now db).users.find?
        (fun x => decide (x.id = u.id)) = some u' ∧
      u'.lastLoginAt = (match u.lastLoginAt with | some _ => some now | none => none) ∧
      u'.phone = (match normalizePhone pp with | some p => p | none => u.phone) ∧
      u'.email = (if optStrTruthy pe ∧ optStrFalsy u.email then pe else u.email) ∧
      u'.addressStreet = (match (mapAddress pa).address_street with | some s => some s | none => u.addressStreet) ∧
      u'.addressPostal = (match (mapAddress pa).address_postal_code with | some s => some s | none => u.addressPostal) ∧
      u'.addressRegion = (match (mapAddress pa).address_region with | some s => some s | none => u.addressRegion) := by
  by_cases hk : eventHasKeys (mkEventUpdates u pp pe pa now) pa = true
  · have hstep : eventSignIn (some "vipps") pp pe pa u now db
        = { db with users := db.users.map (fun x =>
            if x.id = u.id then applyEventUpdates (mkEventUpdates u pp pe pa now) x else x) } := by
      unfold eventSignIn
      rw [if_neg (by simp), if_pos hk]
    refine ⟨applyEventUpdates (mkEventUpdates u pp pe pa now) u, ?_, ?_, ?_, ?_, ?_, ?_, ?_⟩
    · rw [hstep]
      have hf : ∀ x, ((fun x => if x.id = u.id
          then applyEventUpdates (mkEventUpdates u pp pe pa now) x else x) x).id = x.id := by
        intro x
        show (if x.id = u.id
          then applyEventUpdates (mkEventUpdates u pp pe pa now) x else x).id = x.id
        by_cases hx : x.id = u.id
        · rw [if_pos hx, applyEventUpdates_id]
        · rw [if_neg hx]
      rw [find?_map_of_id hf, hu]
      simp
    · exact (applyEvent_mk_fields u pp pe pa now).1
    · exact (applyEvent_mk_fields u pp pe pa now).2.1
    · exact (applyEvent_mk_fields u pp pe pa now).2.2.1
    · exact (applyEvent_mk_fields u pp pe pa now).2.2.2.1
    · exact (applyEvent_mk_fields u pp pe pa now).2.2.2.2.1
    · exact (applyEvent_mk_fields u pp pe pa now).2.2.2.2.2
  · rw [Bool.not_eq_true] at hk
    obtain ⟨hll, hph, hem, hpa⟩ := eventHasKeys_false_fields u pp pe pa now hk
    have hstep : eventSignIn (some "vipps") pp pe pa u now db = db := by
      simp [eventSignIn, hk]
    refine ⟨u, ?_, ?_, ?_, ?_, ?_, ?_, ?_⟩
    · rw [hstep]; exact hu
    · rw [hll]
    · rw [hph]
    · rw [if_neg hem]
    · rw [hpa]; simp [mapAddress]
    · rw [hpa]; simp [mapAddress]
    · rw [hpa]; simp [mapAddress]

/-- C7 witness: an onboarded user (non-null `lastLoginAt`) gets the stamp;
the asserted phone and address are synced. -/
theorem C7_witness :
    ∃ u', (eventSignIn (some "vipps") (some ['4', '7', '1']) none
        (some ⟨some "Gata 1", some "0150", some "Oslo"⟩)
        ⟨"b", ['+', '4', '7', '1'], some "b@x.no", none, none, none, some 5⟩ 99
        ⟨[⟨"b", ['+', '4', '7', '1'], some "b@x.no", none, none, none, some 5⟩],
          [], [], [], []⟩).users.find?
        (fun x => decide (x.id = "b")) = some u' ∧
      u'.lastLoginAt = some 99 ∧ u'.phone = ['+', '4', '7', '1'] ∧
      u'.addressStreet = some "Gata 1" := by
  have h := C7_lastLogin_stamp (some ['4', '7', '1']) none
    (some ⟨some "Gata 1", some "0150", some "Oslo"⟩)
    ⟨"b", ['+', '4', '7', '1'], some "b@x.no", none, none, none, some 5⟩ 99
    ⟨[⟨"b", ['+', '4', '7', '1'], some "b@x.no", none, none, none, some 5⟩],
      [], [], [], []⟩
    (by decide)
  obtain ⟨u', h1, h2, h3, h4, h5, _⟩ := h
  exact ⟨u', h1, h2, h3, h5⟩

/-! ## C2: grant replacement -/

theorem filter_append_split (l new : List AccessGrant) (p : AccessGrant → Bool)
    (hl : ∀ g ∈ l, ¬ p g = true) (hn : ∀ g ∈ new, p g = true) :
    (l ++ new).filter p = new := by
  rw [List.filter_append, List.filter_eq_nil_iff.mpr hl,
    List.filter_eq_self.mpr hn, List.nil_append]

theorem filter_append_keep (l new : List AccessGrant) (p : AccessGrant → Bool)
    (hl : ∀ g ∈ l, p g = true) (hn : ∀ g ∈ new, ¬ p g = true) :
    (l ++ new).filter p = l := by
  rw [List.filter_append, List.filter_eq_self.mpr hl,
    List.filter_eq_nil_iff.mpr hn, List.append_nil]

/-- C2 counterexample: the claim says the stored grant set afterwards always
equals the well-formed entries of the submitted list, but two well-formed
entries sharing a customerId violate the (user_id, customer_id) unique key:
`createMany` throws, the transaction rolls back (handler returns 500), and
the stored set remains the prior one (here: empty) instead of the submitted
entries. -/
theorem C2_counterexample :
    patchUserAccesses (some ⟨"root", "super_admin"⟩) "u1"
      (PatchBody.parsed (some [some ⟨some 1, some "admin"⟩, some ⟨some 1, some "user"⟩]))
      ⟨[], [], [], [], []⟩
      = (ApiResult.fail "Kunne ikke oppdatere brukertilgangene" 500,
         ⟨[], [], [], [], []⟩) ∧
    normalizeUserRows [some ⟨some 1, some "admin"⟩, some ⟨some 1, some "user"⟩]
      = [(1, "admin"), (1, "user")] := by
  constructor
  · decide
  · decide

/-- C2 (amended): for a super_admin session, a non-empty user id / positive
customer id, a parsable body, and submitted well-formed entries with
pairwise-distinct customerIds (resp. userIds), the PATCH handlers replace
the full grant set transactionally: afterwards the grants of that user
(resp. customer) are exactly the well-formed submitted entries, every prior
grant for that user (resp. customer) is gone, and all other grants are
untouched; an empty list leaves the grant set empty. Entries with duplicate
pair keys instead abort the transaction (500) leaving the prior grants
unchanged. -/
theorem C2_replace_grants (session : Option Session) (db : DB)
    (userId : String) (rows : List (Option RawUserAccessRow))
    (cid : Int) (crows : List (Option RawCustomerAccessRow))
    (hs : isSuperAdmin session = true)
    (huid : userId ≠ "")
    (hnodup : ((normalizeUserRows rows).map Prod.fst).Nodup)
    (hcid : 0 < cid)
    (hcnodup : ((normalizeCustomerRows crows).map Prod.fst).Nodup) :
    (patchUserAccesses session userId (PatchBody.parsed (some rows)) db).1
      = ApiResult.ok ∧
    (patchUserAccesses session userId (PatchBody.parsed (some rows)) db).2.grants.filter
        (fun g => g.userId = userId)
      = (normalizeUserRows rows).map (fun r => ⟨userId, r.1, r.2⟩) ∧
    (patchUserAccesses session userId (PatchBody.parsed (some rows)) db).2.grants.filter
        (fun g => g.userId ≠ userId)
      = db.grants.filter (fun g => g.userId ≠ userId) ∧
    (patchCustomerAccesses session (some cid) (PatchBody.parsed (some crows)) db).1
      = ApiResult.ok ∧
    (patchCustomerAccesses session (some cid) (PatchBody.parsed (some crows)) db).2.grants.filter
        (fun g => g.customerId = cid)
      = (normalizeCustomerRows crows).map (fun r => ⟨r.1, cid, r.2⟩) ∧
    (patchCustomerAccesses session (some cid) (PatchBody.parsed (some crows)) db).2.grants.filter
        (fun g => g.customerId ≠ cid)
      = db.grants.filter (fun g => g.customerId ≠ cid) := by
  have hresU : patchUserAccesses session userId (PatchBody.parsed (some rows)) db
      = (ApiResult.ok, { db with grants := db.grants.filter (fun g => g.userId ≠ userId)
          ++ (normalizeUserRows rows).map (fun r => ⟨userId, r.1, r.2⟩) }) := by
    simp [patchUserAccesses, hs, huid, hnodup]
  have hresC : patchCustomerAccesses session (some cid) (PatchBody.parsed (some crows)) db
      = (ApiResult.ok, { db with grants := db.grants.filter (fun g => g.customerId ≠ cid)
          ++ (normalizeCustomerRows crows).map (fun r => ⟨r.1, cid, r.2⟩) }) := by
    have hcid' : ¬ cid ≤ 0 := by omega
    simp [patchCustomerAccesses, hs, hcid', hcnodup]
  refine ⟨by rw [hresU], ?_, ?_, by rw [hresC], ?_, ?_⟩
  · rw [hresU]
    apply filter_append_split
    · intro g hg
      have := List.of_mem_filter hg
      simp at this ⊢
      exact this
    · intro g hg
      obtain ⟨r, _, rfl⟩ := List.mem_map.mp hg
      simp
  · rw [hresU]
    apply filter_append_keep
    · intro g hg
      exact (List.mem_filter.mp hg).2
    · intro g hg
      obtain ⟨r, _, rfl⟩ := List.mem_map.mp hg
      simp
  · rw [hresC]
    apply filter_append_split
    · intro g hg
      have := List.of_mem_filter hg
      simp at this ⊢
      exact this
    · intro g hg
      obtain ⟨r, _, rfl⟩ := List.mem_map.mp hg
      simp
  · rw [hresC]
    apply filter_append_keep
    · intro g hg
      exact (List.mem_filter.mp hg).2
    · intro g hg
      obtain ⟨r, _, rfl⟩ := List.mem_map.mp hg
      simp

/-- C2 witness: the spec scenario — replacing u1's grants with
{2228: admin, 1075: user} removes the prior grant for customer 999 and
leaves u2's grant alone. -/
theorem C2_witness :
    (patchUserAccesses (some ⟨"root", "super_admin"⟩) "u1"
      (PatchBody.parsed (some [some ⟨some 2228, some "admin"⟩,
        some ⟨some 1075, some "user"⟩]))
      ⟨[], [], [⟨"u1", 999, "user"⟩, ⟨"u2", 5, "admin"⟩], [], []⟩).1
      = ApiResult.ok ∧
    (patchUserAccesses (some ⟨"root", "super_admin"⟩) "u1"
      (PatchBody.parsed (some [some ⟨some 2228, some "admin"⟩,
        some ⟨some 1075, some "user"⟩]))
      ⟨[], [], [⟨"u1", 999, "user"⟩, ⟨"u2", 5, "admin"⟩], [], []⟩).2.grants.filter
        (fun g => g.userId = "u1")
      = [⟨"u1", 2228, "admin"⟩, ⟨"u1", 1075, "user"⟩] := by
  have h := C2_replace_grants (some ⟨"root", "super_admin"⟩)
    ⟨[], [], [⟨"u1", 999, "user"⟩, ⟨"u2", 5, "admin"⟩], [], []⟩ "u1"
    [some ⟨some 2228, some "admin"⟩, some ⟨some 1075, some "user"⟩]
    7 []
    (by decide) (by decide) (by decide) (by decide) (by decide)
  refine ⟨h.1, ?_⟩
  rw [h.2.1]
  decide

end Bjugstad
